import Mathlib

/-!
Verification development for a QCoDeS example-notebook repository.

The repository is a Jupyter notebook whose first cell embeds the Qcodes
Jupyter/IPython widget JavaScript (an `UpdateView` base widget, a
`HiddenUpdateView`, and a `SubprocessView` output panel), and whose
remaining cells call the external QCoDeS library (instrument constructors,
Loop/each/run, DataSet.sync, Station).

The widget JavaScript is embedded here as explicit state machines over
`UpdateView` / `SubprocessView` state records; timer behaviour is modelled
by an `active` list of live timer ids and a `tick` step for one firing of
the interval callback.  The external library's Loop/DataSet surface is not
part of the repository's source, so it is modelled from the spec where a
claim needs it (each such definition says so in its doc comment).

The file is organised as definitions first, then theorems.
-/

namespace QcodesNotebook

/-! Definitions: UpdateView widget (embedded JavaScript, notebook cell 1).

State of one `UpdateView` widget instance together with the runtime's
timer table restricted to timers created by this instance.

JS fields: `_interval` (seconds, a JS number, modelled as a rational),
`_updater` (the timer id returned by the runtime, `none` before any timer
was created; browsers return positive integers, so JS truthiness of
`me._updater` is `Option.isSome` here because ids start at 1),
`model.get('interval')` (the configured interval), `model.comm_live`,
`el.innerHTML` (written by `display`), and the count of `me.send`
messages. -/
structure UpdateView where
  interval : ℚ
  modelInterval : ℚ
  updater : Option ℕ
  active : List ℕ
  nextId : ℕ
  sent : ℕ
  commLive : Bool
  innerHTML : String
deriving Repr, DecidableEq

namespace UpdateView

/-- `UpdateView.display`: `this.el.innerHTML = message;` -/
def display (s : UpdateView) (message : String) : UpdateView :=
  { s with innerHTML := message }

/-- `UpdateView.setInterval(newInterval)`.  The argument is `none` for the
JS `undefined` (call with no argument), in which case the model's
configured interval is used.  Mirrors the source line by line:
early return when the new value equals `_interval`; assign `_interval`;
clear the old timer when `_updater` is truthy; start a new timer when the
new `_interval` is truthy (nonzero). -/
def setInterval (s : UpdateView) (newInterval : Option ℚ) : UpdateView :=
  let n := newInterval.getD s.modelInterval
  if n = s.interval then s
  else
    let s1 : UpdateView := { s with interval := n }
    let s2 : UpdateView :=
      match s1.updater with
      | some id => { s1 with active := s1.active.erase id }
      | none => s1
    if n ≠ 0 then
      { s2 with
        updater := some s2.nextId
        active := s2.nextId :: s2.active
        nextId := s2.nextId + 1 }
    else s2

/-- One firing of the interval callback installed by `setInterval`:
if no timer of this view is live nothing happens; otherwise the callback
runs: it sends one update message, then if `!me.model.comm_live` it calls
`clearInterval(me._updater)`. -/
def tick (s : UpdateView) : UpdateView :=
  if s.active = [] then s
  else
    let s1 : UpdateView := { s with sent := s.sent + 1 }
    if s1.commLive then s1
    else
      match s1.updater with
      | some id => { s1 with active := s1.active.erase id }
      | none => s1

/-- State right after the first lines of `UpdateView.render`
(`this._interval = 0;`), before the `this.update()` call: no timer
exists yet. -/
def initState (modelInterval : ℚ) (commLive : Bool) : UpdateView :=
  { interval := 0
    modelInterval := modelInterval
    updater := none
    active := []
    nextId := 1
    sent := 0
    commLive := commLive
    innerHTML := "" }

/-- Well-formedness of a widget state: any id stored in `_updater` is
below the id allocator, and at most one timer is live — when one is, its
id is the one stored in `_updater`. -/
def wf (s : UpdateView) : Prop :=
  (∀ id, s.updater = some id → id < s.nextId) ∧
  (s.active = [] ∨ ∃ id, s.updater = some id ∧ s.active = [id])

end UpdateView

/-- A concrete widget state used to instantiate the theorems: one live
timer (id 1), dead comm. -/
def sampleUV : UpdateView :=
  { interval := 1
    modelInterval := 1
    updater := some 1
    active := [1]
    nextId := 2
    sent := 0
    commLive := false
    innerHTML := "" }

/-! Definitions: SubprocessView output panel (embedded JavaScript). -/

/-- JS `String.prototype.split` with a single-character separator,
on character lists. -/
def splitOnChar (c : Char) : List Char → List (List Char)
  | [] => [[]]
  | x :: xs =>
    match splitOnChar c xs with
    | [] => if x = c then [[], []] else [[x]]
    | y :: ys => if x = c then [] :: y :: ys else (x :: y) :: ys

/-- JS `s.substr(s.indexOf(pat))` for the case where `pat` occurs in `s`
(as it does for every `js-state` button class): the suffix starting at the
first occurrence of `pat`, `[]` when there is none. -/
def dropToSub (pat : List Char) : List Char → List Char
  | [] => []
  | x :: xs => if (x :: xs).take pat.length = pat then x :: xs else dropToSub pat xs

/-- The `js-state` click handler's computation of the target state from
the clicked button's `className`:
`className.substr(className.indexOf('qcodes')).split('-')[1].split(' ')[0]`. -/
def stateFromClassName (cn : List Char) : String :=
  String.mk ((splitOnChar ' ' ((splitOnChar '-' (dropToSub ("qcodes".data) cn)).getD 1 [])).headD [])

/-- The three `js-state` buttons built by `SubprocessView.render`. -/
inductive StateBtn where
  | minimizedBtn
  | dockedBtn
  | floatedBtn
deriving Repr, DecidableEq

/-- The `className` of each `js-state` button, as written in the HTML
built by `SubprocessView.render`. -/
def btnClassName : StateBtn → List Char
  | .minimizedBtn => "btn js-state qcodes-minimized".data
  | .dockedBtn => "btn js-state qcodes-docked".data
  | .floatedBtn => "btn js-state qcodes-floated".data

/-- The state named by each button's class. -/
def stateName : StateBtn → String
  | .minimizedBtn => "minimized"
  | .dockedBtn => "docked"
  | .floatedBtn => "floated"

/-- JS `pr.indexOf('Measurement') !== -1` as a Boolean on character
lists. -/
def containsSub (pat : List Char) : List Char → Bool
  | [] => pat.isEmpty
  | x :: xs => ((x :: xs).take pat.length = pat) || containsSub pat xs

/-- State of a `SubprocessView` widget instance.

`qcodesState` is the `qcodes-state` attribute of the view's element;
`output` is the innerHTML of the `pre.qcodes-content` output area;
`clearDisabled` / `abortDisabled` are the `disabled` classes of the Clear
and Abort buttons; `subprocessText` is the header span's text; `left` and
`top` are the element's inline position (meaningful while floated). -/
structure SubprocessView where
  qcodesState : String
  output : String
  clearDisabled : Bool
  abortDisabled : Bool
  subprocessText : String
  left : ℤ
  top : ℤ
deriving Repr, DecidableEq

namespace SubprocessView

/-- The `js-state` click handler: computes the target state from the
clicked button's class, re-attaches the element to `body`, sets the
`qcodes-state` attribute, and, when entering the floated state, positions
the element near the bottom-right corner of the window (`w`, `h` are
`window.innerWidth/innerHeight`, `ew`, `eh` the element's dimensions). -/
def clickState (s : SubprocessView) (b : StateBtn) (w h ew eh : ℤ) : SubprocessView :=
  if stateFromClassName (btnClassName b) = "floated" then
    { s with
      qcodesState := stateFromClassName (btnClassName b)
      left := w - ew - 15
      top := h - eh - 10 }
  else
    { s with qcodesState := stateFromClassName (btnClassName b) }

/-- The Clear button click handler: empties the output area and disables
the Clear button. -/
def clickClear (s : SubprocessView) : SubprocessView :=
  { s with output := "", clearDisabled := true }

/-- The message branch of `SubprocessView.display`:
`this.outputArea.append(message)` followed by
`this.clearButton.removeClass('disabled')`. -/
def appendMessage (s0 : SubprocessView) (message : String) : SubprocessView :=
  { s0 with output := s0.output ++ message, clearDisabled := false }

/-- The tail of `SubprocessView.display`: refresh the subprocess list and
the Abort button from `this.model.get('_processes')` (`none` models an
unset/undefined value; JS `|| 'No subprocesses'` also replaces the empty
string); the Abort button is disabled iff the process list does not
mention `Measurement`. -/
def refreshProcessList (s1 : SubprocessView) (processes : Option String) : SubprocessView :=
  { s1 with
    abortDisabled :=
      !containsSub ("Measurement".data)
        (match processes with
         | none => "No subprocesses"
         | some p => if p = "" then "No subprocesses" else p).data
    subprocessText :=
      match processes with
      | none => "No subprocesses"
      | some p => if p = "" then "No subprocesses" else p }

/-- `SubprocessView.display(message)`.  When the message is nonempty
(JS truthy): if minimized, the `.qcodes-docked` button is clicked first;
the message is appended to the output area and the Clear button is
re-enabled.  In all cases the subprocess list and the Abort button are
refreshed. -/
def display (s : SubprocessView) (message : String) (processes : Option String) :
    SubprocessView :=
  refreshProcessList
    (if message ≠ "" then
      appendMessage
        (if s.qcodesState = "minimized" then clickState s .dockedBtn 0 0 0 0 else s)
        message
     else s)
    processes

/-- A drag of the floated panel by the user (jQuery `draggable` is only
enabled in the floated state). -/
def drag (s : SubprocessView) (l t : ℤ) : SubprocessView :=
  if s.qcodesState = "floated" then { s with left := l, top := t } else s

/-- `if(position.left > maxLeft) me.$el.css('left', maxLeft);` -/
def clampLeft (s : SubprocessView) (maxLeft : ℤ) : SubprocessView :=
  if s.left > maxLeft then { s with left := maxLeft } else s

/-- `if(position.top > maxTop) me.$el.css('top', maxTop);` -/
def clampTop (s : SubprocessView) (maxTop : ℤ) : SubprocessView :=
  if s.top > maxTop then { s with top := maxTop } else s

/-- The `$(window).resize` handler: in the floated state, clamps the
panel's position against `maxLeft = innerWidth - minVis` and
`maxTop = innerHeight - minVis` with `minVis = 20` (the left clamp does
not change the top offset, so the two source `if`s compose). -/
def resize (s : SubprocessView) (innerWidth innerHeight : ℤ) : SubprocessView :=
  if s.qcodesState = "floated" then
    clampTop (clampLeft s (innerWidth - 20)) (innerHeight - 20)
  else s

/-- `SubprocessView.render`: builds the panel with `qcodes-state` set to
`docked`, output empty, Clear and Abort buttons disabled, then runs
`me.update()`, i.e. `display` of the model's current message and process
list. -/
def render (message : String) (processes : Option String) : SubprocessView :=
  display
    { qcodesState := "docked"
      output := ""
      clearDisabled := true
      abortDisabled := true
      subprocessText := ""
      left := 0
      top := 0 }
    message processes

/-- The widget operations that can occur after `render`. -/
inductive Op where
  | clickState (b : StateBtn) (w h ew eh : ℤ)
  | clickClear
  | clickAbort
  | displayMsg (message : String) (processes : Option String)
  | drag (l t : ℤ)
  | resize (w h : ℤ)

/-- One widget operation.  The Abort click only sends a message to the
kernel and changes no DOM state. -/
def step (s : SubprocessView) : Op → SubprocessView
  | .clickState b w h ew eh => clickState s b w h ew eh
  | .clickClear => clickClear s
  | .clickAbort => s
  | .displayMsg m p => display s m p
  | .drag l t => drag s l t
  | .resize w h => resize s w h

end SubprocessView

/-- A concrete floated panel state used to instantiate the theorems. -/
def sampleSP : SubprocessView :=
  { qcodesState := "floated"
    output := ""
    clearDisabled := true
    abortDisabled := true
    subprocessText := "No subprocesses"
    left := 500
    top := 400 }

/-! Definitions: the document-level cleanup done at the start of
`SubprocessView.render`. -/

/-- A DOM element for the purposes of the render cleanup: its identity and
whether it carries the `qcodes-output-view` class. -/
abbrev DomElem := ℕ × Bool

/-- The first lines of `SubprocessView.render` acting on the document:
`$('.qcodes-output-view').not(me.$el).remove()` removes every element
with the class other than the view's own element, then
`me.$el.addClass('qcodes-output-view')` marks the view's own element. -/
def renderCleanup (doc : List DomElem) (selfId : ℕ) : List DomElem :=
  (doc.filter (fun e => !(e.2 && e.1 != selfId))).map
    (fun e => if e.1 = selfId then (e.1, true) else e)

/-! Definitions: the external library surface used by the notebook cells.

These are not part of the repository's source (the notebook only calls
them), so they are modelled from the spec. -/

/-- A named numeric array of a dataset. -/
structure DataArray where
  name : String
  data : List ℚ
deriving Repr, DecidableEq

/-- Modelled from the spec: a DataSet is "a persisted collection of named
numeric arrays produced by a sweep or single measurement", "keyed by a
location string".  The library's `DataSet` class is not in this
repository's source. -/
structure DataSet where
  location : String
  arrays : List DataArray
deriving Repr, DecidableEq

/-- A measured parameter passed to `.each(...)`: a name and the reading it
returns as a function of the current swept setting. -/
structure SweepParam where
  name : String
  response : ℚ → ℚ

/-- Modelled from the spec: the sweep specification `param[start:stop:step]`
used by the notebook (`k1.volt[-5:5:1]`), i.e. "a parameterized loop over
one or more instrument settings": the arithmetic sequence from `start`
(inclusive) to `stop` (exclusive) in steps of `step`.  The library's
`SweepFixedValues` class is not in this repository's source. -/
def sweepSetpoints (start stop step : ℚ) : List ℚ :=
  (List.range (Int.toNat ⌈(stop - start) / step⌉)).map (fun i => start + step * i)

/-- Modelled from the spec: `Loop(sweep, delay).each(p1, ..., pn).run(location, ...)`,
"a sweep-building/execution entry point that accepts a sweep specification
and one or more measured parameters and produces a persisted dataset keyed
by a location string", recording "one or more measured parameters at each
setting".  The resulting dataset holds the set-point array (named after
the swept parameter with the `_set` suffix, as in the notebook's recorded
output) and one measured array per parameter passed to `.each`, with one
reading at each setting.  The library's `Loop` class is not in this
repository's source. -/
def loopRun (setName : String) (setpoints : List ℚ) (measured : List SweepParam)
    (location : String) : DataSet :=
  { location := location
    arrays :=
      { name := setName ++ "_set", data := setpoints } ::
        measured.map (fun p => { name := p.name, data := setpoints.map p.response }) }

/-- The measured parameter of the notebook's first sweep,
`curr = ithaco.CurrentParameter(a2.volt, camp)`; its reading at a given
setting is external to the repository, so any response function
represents it. -/
def sampleParam : SweepParam :=
  { name := "current", response := fun v => -v / 10000 }

/-! Definitions: the notebook's `while data.sync(): time.sleep(0.1)`
polling loop. -/

/-- The notebook's synchronization polling loop, as a big-step
characterization: `SyncLoopHalts sync k` holds when the loop, whose `n`-th
call of `data.sync()` returns `sync n`, terminates when started at call
index `k`.  The loop body is only `time.sleep(0.1)`, which changes no
state. -/
inductive SyncLoopHalts (sync : ℕ → Bool) : ℕ → Prop where
  | done (k : ℕ) : sync k = false → SyncLoopHalts sync k
  | again (k : ℕ) : sync k = true → SyncLoopHalts sync (k + 1) → SyncLoopHalts sync k

/-! Definitions: notebook cells as sequences of library calls.

Each library call either returns or raises; `outcome j` is the result of
the `j`-th call of a cell.  The notebook contains no try/except, so cell
execution is plain sequencing in the exception monad. -/

/-- Run `n` library calls in sequence starting at call index `k`;
execution stops at the first call that raises, and the raised exception
is the cell's result. -/
def runCalls (outcome : ℕ → Except String Unit) : ℕ → ℕ → Except String Unit
  | _, 0 => Except.ok ()
  | k, n + 1 =>
    match outcome k with
    | Except.ok _ => runCalls outcome (k + 1) n
    | Except.error e => Except.error e

/-- Whether `Timer.__exit__` suppresses an exception: it prints the
elapsed time and implicitly returns `None`, which is falsy, so it never
suppresses. -/
def timerExitSuppresses (_timerName : Option String) : Bool := false

/-- Python `with` statement semantics over the exception monad: the
context manager's `__exit__` runs on exit, and the exception is re-raised
unless `__exit__` returned a truthy value. -/
def withStmt (suppresses : Bool) (body : Except String Unit) : Except String Unit :=
  match body with
  | Except.ok _ => Except.ok ()
  | Except.error e => if suppresses then Except.ok () else Except.error e

/-- The instrument-construction cell: nine library calls in sequence (two
Keithley constructors, two Agilent constructors, the Ithaco constructor,
`camp.sens.set`, the `CurrentParameter` constructor, and two `NPLC.set`
calls), with no handler around any of them. -/
def instrumentCell (outcome : ℕ → Except String Unit) : Except String Unit :=
  runCalls outcome 0 9

/-- The timed-loop cell: two `with Timer(...)` blocks in sequence, each
containing one `Loop(...).each(...).run(...)` call. -/
def timedLoopCell (outcome : ℕ → Except String Unit) : Except String Unit :=
  match withStmt (timerExitSuppresses (some "Time Loop 1")) (runCalls outcome 0 1) with
  | Except.ok _ =>
      withStmt (timerExitSuppresses (some "Time Loop 2")) (runCalls outcome 1 1)
  | Except.error e => Except.error e

/-! Theorems. -/

namespace UpdateView

theorem wf_initState (mi : ℚ) (cl : Bool) : wf (initState mi cl) :=
  ⟨fun id h => by simp [initState] at h, Or.inl rfl⟩

theorem setInterval_self (s : UpdateView) : s.setInterval (some s.interval) = s := by
  simp [setInterval]

/-- Characterization of a `setInterval` call that changes the interval:
the old timer (if any) is gone, and a fresh timer runs exactly when the
new interval is nonzero. -/
theorem setInterval_spec (s : UpdateView) (a : Option ℚ) (h : wf s)
    (hn : a.getD s.modelInterval ≠ s.interval) :
    if a.getD s.modelInterval ≠ 0 then
      (s.setInterval a).active = [s.nextId] ∧
      (s.setInterval a).updater = some s.nextId ∧
      (s.setInterval a).nextId = s.nextId + 1
    else
      (s.setInterval a).active = [] ∧
      (s.setInterval a).updater = s.updater ∧
      (s.setInterval a).nextId = s.nextId := by
  by_cases hz : a.getD s.modelInterval ≠ 0
  · rcases h.2 with hact | ⟨id, hup, hact⟩
    · cases hup : s.updater <;> simp_all [setInterval]
    · simp_all [setInterval]
  · rcases h.2 with hact | ⟨id, hup, hact⟩
    · cases hup : s.updater <;> simp_all [setInterval]
    · simp_all [setInterval]

theorem wf_setInterval (s : UpdateView) (a : Option ℚ) (h : wf s) :
    wf (s.setInterval a) := by
  by_cases hn : a.getD s.modelInterval = s.interval
  · have heq : s.setInterval a = s := by simp [setInterval, hn]
    rwa [heq]
  · have hs := setInterval_spec s a h hn
    by_cases hz : a.getD s.modelInterval ≠ 0
    · rw [if_pos hz] at hs
      obtain ⟨hact, hup, hnext⟩ := hs
      refine ⟨fun id hid => ?_, Or.inr ⟨s.nextId, hup, hact⟩⟩
      rw [hup] at hid
      rw [hnext]
      cases hid
      omega
    · rw [if_neg hz] at hs
      obtain ⟨hact, hup, hnext⟩ := hs
      refine ⟨fun id hid => ?_, Or.inl hact⟩
      rw [hup] at hid
      rw [hnext]
      exact h.1 id hid

theorem length_le_one_of_wf (s : UpdateView) (h : wf s) : s.active.length ≤ 1 := by
  rcases h.2 with h0 | ⟨id, _, hact⟩
  · simp [h0]
  · simp [hact]

theorem wf_foldl_setInterval (mi : ℚ) (cl : Bool) (args : List (Option ℚ)) :
    wf (args.foldl setInterval (initState mi cl)) := by
  suffices H : ∀ (l : List (Option ℚ)) (s : UpdateView), wf s → wf (l.foldl setInterval s) from
    H args _ (wf_initState mi cl)
  intro l
  induction l with
  | nil => intro s hs; exact hs
  | cons a l ih => intro s hs; exact ih _ (wf_setInterval s a hs)

theorem tick_of_inactive (s : UpdateView) (h : s.active = []) : s.tick = s := by
  simp [tick, h]

theorem tick_iterate_of_inactive (s : UpdateView) (h : s.active = []) (n : ℕ) :
    tick^[n] s = s := by
  induction n with
  | zero => rfl
  | succ n ih => rw [Function.iterate_succ_apply, tick_of_inactive s h, ih]

end UpdateView

/-- The click handler's string computation names exactly the state of the
clicked button. -/
theorem stateFromClassName_btnClassName (b : StateBtn) :
    stateFromClassName (btnClassName b) = stateName b := by
  cases b <;> decide

namespace SubprocessView

theorem clickState_qcodesState (s : SubprocessView) (b : StateBtn) (w h ew eh : ℤ) :
    (clickState s b w h ew eh).qcodesState = stateName b := by
  rw [← stateFromClassName_btnClassName]
  unfold clickState
  split <;> rfl

theorem clickState_output (s : SubprocessView) (b : StateBtn) (w h ew eh : ℤ) :
    (clickState s b w h ew eh).output = s.output := by
  unfold clickState
  split <;> rfl

theorem clickState_clearDisabled (s : SubprocessView) (b : StateBtn) (w h ew eh : ℤ) :
    (clickState s b w h ew eh).clearDisabled = s.clearDisabled := by
  unfold clickState
  split <;> rfl

theorem refreshProcessList_qcodesState (s : SubprocessView) (p : Option String) :
    (refreshProcessList s p).qcodesState = s.qcodesState := rfl

theorem refreshProcessList_output (s : SubprocessView) (p : Option String) :
    (refreshProcessList s p).output = s.output := rfl

theorem refreshProcessList_clearDisabled (s : SubprocessView) (p : Option String) :
    (refreshProcessList s p).clearDisabled = s.clearDisabled := rfl

/-- A nonempty message is appended to the output area and re-enables the
Clear button. -/
theorem display_append (s : SubprocessView) (m : String) (p : Option String)
    (hm : m ≠ "") :
    (display s m p).output = s.output ++ m ∧ (display s m p).clearDisabled = false := by
  unfold display
  rw [if_pos hm]
  by_cases hmin : s.qcodesState = "minimized"
  · rw [if_pos hmin]
    refine ⟨?_, ?_⟩
    · rw [refreshProcessList_output]
      show (clickState s .dockedBtn 0 0 0 0).output ++ m = s.output ++ m
      rw [clickState_output]
    · rw [refreshProcessList_clearDisabled]
      rfl
  · rw [if_neg hmin]
    exact ⟨rfl, rfl⟩

/-- `display` either leaves the panel state alone or sets it to `docked`
(via the `.qcodes-docked` click that restores a minimized panel). -/
theorem display_qcodesState (s : SubprocessView) (m : String) (p : Option String) :
    (display s m p).qcodesState = s.qcodesState ∨
      (display s m p).qcodesState = "docked" := by
  unfold display
  by_cases hm : m ≠ ""
  · rw [if_pos hm]
    by_cases hmin : s.qcodesState = "minimized"
    · rw [if_pos hmin]
      right
      rw [refreshProcessList_qcodesState]
      show (clickState s .dockedBtn 0 0 0 0).qcodesState = "docked"
      rw [clickState_qcodesState]
      rfl
    · rw [if_neg hmin]
      left
      rfl
  · rw [if_neg hm]
    left
    rfl

theorem drag_qcodesState (s : SubprocessView) (l t : ℤ) :
    (drag s l t).qcodesState = s.qcodesState := by
  unfold drag
  split <;> rfl

theorem clampLeft_qcodesState (s : SubprocessView) (m : ℤ) :
    (clampLeft s m).qcodesState = s.qcodesState := by
  unfold clampLeft
  split <;> rfl

theorem clampTop_qcodesState (s : SubprocessView) (m : ℤ) :
    (clampTop s m).qcodesState = s.qcodesState := by
  unfold clampTop
  split <;> rfl

theorem resize_qcodesState (s : SubprocessView) (w h : ℤ) :
    (resize s w h).qcodesState = s.qcodesState := by
  unfold resize
  split
  · rw [clampTop_qcodesState, clampLeft_qcodesState]
  · rfl

theorem clampLeft_left_le (s : SubprocessView) (m : ℤ) : (clampLeft s m).left ≤ m ∨
    (clampLeft s m).left = s.left := by
  unfold clampLeft
  split
  · left; rfl
  · right; rfl

theorem clampLeft_top (s : SubprocessView) (m : ℤ) : (clampLeft s m).top = s.top := by
  unfold clampLeft
  split <;> rfl

theorem clampTop_left (s : SubprocessView) (m : ℤ) : (clampTop s m).left = s.left := by
  unfold clampTop
  split <;> rfl

/-- After `clampLeft`, the left offset is at most the bound. -/
theorem clampLeft_le (s : SubprocessView) (m : ℤ) : (clampLeft s m).left ≤ m := by
  unfold clampLeft
  split
  · exact le_refl m
  · omega

/-- After `clampTop`, the top offset is at most the bound. -/
theorem clampTop_le (s : SubprocessView) (m : ℤ) : (clampTop s m).top ≤ m := by
  unfold clampTop
  split
  · exact le_refl m
  · omega

/-- Every widget operation keeps the `qcodes-state` attribute in the
three-element state set. -/
theorem step_state_mem (s : SubprocessView) (op : Op)
    (h : s.qcodesState ∈ (["docked", "minimized", "floated"] : List String)) :
    (step s op).qcodesState ∈ (["docked", "minimized", "floated"] : List String) := by
  cases op with
  | clickState b w hh ew eh =>
    rw [show step s (Op.clickState b w hh ew eh) = clickState s b w hh ew eh from rfl,
      clickState_qcodesState]
    cases b <;> simp [stateName]
  | clickClear => exact h
  | clickAbort => exact h
  | displayMsg m p =>
    rcases display_qcodesState s m p with hd | hd
    · rw [show step s (Op.displayMsg m p) = display s m p from rfl, hd]; exact h
    · rw [show step s (Op.displayMsg m p) = display s m p from rfl, hd]; simp
  | drag l t =>
    rw [show step s (Op.drag l t) = drag s l t from rfl, drag_qcodesState]; exact h
  | resize w hh =>
    rw [show step s (Op.resize w hh) = resize s w hh from rfl, resize_qcodesState]; exact h

theorem render_qcodesState (message : String) (processes : Option String) :
    (render message processes).qcodesState = "docked" := by
  unfold render
  rcases display_qcodesState
      { qcodesState := "docked", output := "", clearDisabled := true,
        abortDisabled := true, subprocessText := "", left := 0, top := 0 }
      message processes with hd | hd
  · exact hd
  · exact hd

theorem foldl_step_state_mem (s : SubprocessView) (ops : List Op)
    (h : s.qcodesState ∈ (["docked", "minimized", "floated"] : List String)) :
    (ops.foldl step s).qcodesState ∈ (["docked", "minimized", "floated"] : List String) := by
  induction ops generalizing s with
  | nil => exact h
  | cons op ops ih => exact ih _ (step_state_mem s op h)

end SubprocessView

/-- In a document with no element identified as the view's own, the
cleanup leaves no element with the `qcodes-output-view` class. -/
theorem countP_renderCleanup_zero (doc : List DomElem) (selfId : ℕ)
    (h : doc.countP (fun e => e.1 == selfId) = 0) :
    (renderCleanup doc selfId).countP (fun e => e.2) = 0 := by
  induction doc with
  | nil => rfl
  | cons e doc ih =>
    rw [List.countP_cons] at h
    by_cases h1 : e.1 = selfId
    · simp [h1] at h
    · have hdoc : doc.countP (fun x => x.1 == selfId) = 0 := by
        by_cases hb : (e.1 == selfId) = true
        · exact absurd (by simpa using hb) h1
        · simpa [hb] using h
      cases h2 : e.2
      · simpa [renderCleanup, List.filter_cons, h1, h2, List.countP_cons]
          using ih hdoc
      · simpa [renderCleanup, List.filter_cons, h1, h2] using ih hdoc

/-- In a document containing the view's own element exactly once, the
cleanup leaves exactly one element with the `qcodes-output-view` class. -/
theorem countP_renderCleanup_one (doc : List DomElem) (selfId : ℕ)
    (h : doc.countP (fun e => e.1 == selfId) = 1) :
    (renderCleanup doc selfId).countP (fun e => e.2) = 1 := by
  induction doc with
  | nil => simp at h
  | cons e doc ih =>
    rw [List.countP_cons] at h
    by_cases h1 : e.1 = selfId
    · have hdoc : doc.countP (fun x => x.1 == selfId) = 0 := by simpa [h1] using h
      simpa [renderCleanup, List.filter_cons, h1, List.countP_cons]
        using countP_renderCleanup_zero doc selfId hdoc
    · have hdoc : doc.countP (fun x => x.1 == selfId) = 1 := by
        by_cases hb : (e.1 == selfId) = true
        · exact absurd (by simpa using hb) h1
        · simpa [hb] using h
      cases h2 : e.2
      · simpa [renderCleanup, List.filter_cons, h1, h2, List.countP_cons]
          using ih hdoc
      · simpa [renderCleanup, List.filter_cons, h1, h2] using ih hdoc

/-- After the cleanup, every element carrying the `qcodes-output-view`
class is the view's own element. -/
theorem renderCleanup_class_only_self (doc : List DomElem) (selfId : ℕ) :
    ∀ e ∈ renderCleanup doc selfId, e.2 = true → e.1 = selfId := by
  intro e he h2
  unfold renderCleanup at he
  rw [List.mem_map] at he
  obtain ⟨e0, he0, heq⟩ := he
  rw [List.mem_filter] at he0
  obtain ⟨_, hkeep⟩ := he0
  by_cases h1 : e0.1 = selfId
  · rw [← heq, if_pos h1]
    exact h1
  · rw [if_neg h1] at heq
    have hne : (e0.1 != selfId) = true := by
      simpa using h1
    rw [hne] at hkeep
    have h2f : e0.2 = false := by
      cases hb : e0.2
      · rfl
      · rw [hb] at hkeep; simp at hkeep
    rw [← heq, h2f] at h2
    exact absurd h2 (by simp)

/-- The notebook's sweep specification `k1.volt[-5:5:1]` enumerates the
set points `-5, -4, ..., 4`. -/
theorem sweepSetpoints_neg5_5_1 :
    sweepSetpoints (-5) 5 1 = [-5, -4, -3, -2, -1, 0, 1, 2, 3, 4] := by
  have hc : (⌈((5 : ℚ) - -5) / 1⌉ : ℤ) = 10 := by norm_num
  have h10 : Int.toNat ⌈((5 : ℚ) - -5) / 1⌉ = 10 := by rw [hc]; rfl
  simp only [sweepSetpoints, h10, List.range_succ, List.range_zero, List.map_append,
    List.map_cons, List.map_nil, List.nil_append, List.cons_append]
  norm_num

/-- Execution of a call sequence propagates the first raised exception:
when calls `0, ..., i-1` return and call `i` raises `e`, running at least
`i + 1` calls from index `k ≤ i` gives `e` as the overall result. -/
theorem runCalls_error (outcome : ℕ → Except String Unit) (e : String) :
    ∀ (n k i : ℕ), k ≤ i → i < k + n →
      (∀ j, j < i → outcome j = Except.ok ()) → outcome i = Except.error e →
      runCalls outcome k n = Except.error e := by
  intro n
  induction n with
  | zero =>
    intro k i hk hi _ _
    exact absurd hk (by omega)
  | succ n ih =>
    intro k i hk hi hok hfail
    rcases Nat.eq_or_lt_of_le hk with heq | hlt
    · subst heq
      show (match outcome k with
        | Except.ok _ => runCalls outcome (k + 1) n
        | Except.error e => Except.error e) = Except.error e
      rw [hfail]
    · have h1 : outcome k = Except.ok () := hok k hlt
      show (match outcome k with
        | Except.ok _ => runCalls outcome (k + 1) n
        | Except.error e => Except.error e) = Except.error e
      rw [h1]
      exact ih (k + 1) i hlt (by omega) hok hfail

/-! Claim theorems. -/

/-- Claim C1: a sweep built as `Loop(setpoints).each(p1, ..., pn).run(...)`
records one reading of every measured parameter at each setting: for the
sweep `Loop(k1.volt[-5:5:1], 0).each(...)`, every array of the resulting
dataset has length 10, the set-point array `volt_set` is the arithmetic
sequence `-5, -4, ..., 4`, and the dataset holds exactly one measured
array per parameter passed to `each()`, whose data is that parameter's
reading at each set point in order. -/
theorem loop_each_run_records_every_parameter (ps : List SweepParam) (loc : String) :
    (∀ a ∈ (loopRun "volt" (sweepSetpoints (-5) 5 1) ps loc).arrays, a.data.length = 10) ∧
    (loopRun "volt" (sweepSetpoints (-5) 5 1) ps loc).arrays.length = ps.length + 1 ∧
    (loopRun "volt" (sweepSetpoints (-5) 5 1) ps loc).arrays.head? =
      some { name := "volt_set", data := [-5, -4, -3, -2, -1, 0, 1, 2, 3, 4] } ∧
    (loopRun "volt" (sweepSetpoints (-5) 5 1) ps loc).arrays.tail =
      ps.map (fun p => { name := p.name, data := (sweepSetpoints (-5) 5 1).map p.response }) := by
  refine ⟨?_, ?_, ?_, ?_⟩
  · intro a ha
    simp only [loopRun, List.mem_cons, List.mem_map] at ha
    rcases ha with rfl | ⟨p, _, rfl⟩
    · simp [sweepSetpoints_neg5_5_1]
    · simp [sweepSetpoints_neg5_5_1]
  · simp [loopRun]
  · simp [loopRun, sweepSetpoints_neg5_5_1]
  · simp [loopRun]

/-- Witness for C1 at the concrete sweep of the notebook with one
measured parameter. -/
theorem loop_each_run_records_witness :
    ({ name := "volt_set", data := [-5, -4, -3, -2, -1, 0, 1, 2, 3, 4] } : DataArray).data.length
      = 10 :=
  (loop_each_run_records_every_parameter [sampleParam] "testsweep").1
    { name := "volt_set", data := [-5, -4, -3, -2, -1, 0, 1, 2, 3, 4] }
    (by simp [loopRun, sweepSetpoints_neg5_5_1])

/-- Claim C2: while a polling timer is live, each firing of the interval
callback sends one update message; and when `model.comm_live` is `false`
at a firing, the timer is cleared, after which no further firing ever
sends a message (the message count stays at its value right after the
dead tick). -/
theorem polling_checks_comm_live (s : UpdateView) (hwf : UpdateView.wf s)
    (hact : s.active ≠ []) :
    (s.commLive = true →
      ((UpdateView.tick s).sent = s.sent + 1 ∧ (UpdateView.tick s).active = s.active)) ∧
    (s.commLive = false →
      ((UpdateView.tick s).sent = s.sent + 1 ∧ (UpdateView.tick s).active = [] ∧
        ∀ n : ℕ, (UpdateView.tick^[n] (UpdateView.tick s)).sent = s.sent + 1)) := by
  rcases hwf.2 with h0 | ⟨id, hup, hactEq⟩
  · exact absurd h0 hact
  constructor
  · intro hlive
    constructor
    · simp [UpdateView.tick, hactEq, hlive]
    · simp [UpdateView.tick, hactEq, hlive]
  · intro hdead
    have h1 : (UpdateView.tick s).active = [] := by
      simp [UpdateView.tick, hactEq, hdead, hup]
    have h2 : (UpdateView.tick s).sent = s.sent + 1 := by
      simp [UpdateView.tick, hactEq, hdead, hup]
    refine ⟨h2, h1, fun n => ?_⟩
    rw [UpdateView.tick_iterate_of_inactive _ h1 n, h2]

/-- Witness for C2 at a concrete widget state with one live timer and a
dead comm: the dead tick clears the timer and two further tick attempts
send nothing. -/
theorem polling_checks_comm_live_witness :
    (UpdateView.tick^[2] (UpdateView.tick sampleUV)).sent = sampleUV.sent + 1 :=
  ((polling_checks_comm_live sampleUV
      ⟨fun id h => by simp [sampleUV] at h ⊢; omega,
        Or.inr ⟨1, rfl, rfl⟩⟩
      (by simp [sampleUV])).2 rfl).2.2 2

/-- Claim C3: the subprocess-output panel is a three-state machine:
`render` initializes the `qcodes-state` attribute to `docked`, every
`js-state` button click sets it to the state named by the clicked
button's class, and no sequence of widget operations ever takes it
outside the set docked / minimized / floated. -/
theorem subprocess_panel_three_states (message : String) (processes : Option String)
    (ops : List SubprocessView.Op) :
    (SubprocessView.render message processes).qcodesState = "docked" ∧
    (∀ (s : SubprocessView) (b : StateBtn) (w h ew eh : ℤ),
      (SubprocessView.clickState s b w h ew eh).qcodesState = stateName b) ∧
    (ops.foldl SubprocessView.step (SubprocessView.render message processes)).qcodesState ∈
      (["docked", "minimized", "floated"] : List String) := by
  refine ⟨SubprocessView.render_qcodesState message processes,
    SubprocessView.clickState_qcodesState, ?_⟩
  apply SubprocessView.foldl_step_state_mem
  rw [SubprocessView.render_qcodesState]
  simp

/-- Claim C4: the sweep execution entry point keys the persisted dataset
by the explicit `location` argument; in particular the notebook's
`run(location='testsweep', overwrite=True)` produces a dataset whose
location is `testsweep`. -/
theorem run_persists_at_location (setName loc : String) (sp : List ℚ)
    (ps : List SweepParam) :
    (loopRun setName sp ps loc).location = loc ∧
    (loopRun "volt" (sweepSetpoints (-5) 5 1) [sampleParam] "testsweep").location
      = "testsweep" :=
  ⟨rfl, rfl⟩

/-- Claim C5: `SubprocessView.display` buffers: a nonempty message is
appended to the existing output area content (so everything previously
displayed is kept) and the Clear button is re-enabled, whereas the base
`UpdateView.display` replaces the element's entire innerHTML with the
message. -/
theorem subprocess_display_buffers (s : SubprocessView) (message : String)
    (processes : Option String) (hm : message ≠ "") (u : UpdateView) (m2 : String) :
    (SubprocessView.display s message processes).output = s.output ++ message ∧
    (SubprocessView.display s message processes).clearDisabled = false ∧
    (UpdateView.display u m2).innerHTML = m2 := by
  obtain ⟨h1, h2⟩ := SubprocessView.display_append s message processes hm
  exact ⟨h1, h2, rfl⟩

/-- Witness for C5 at a concrete panel state and message. -/
theorem subprocess_display_buffers_witness :
    (SubprocessView.display sampleSP "done" none).output = sampleSP.output ++ "done" ∧
    (SubprocessView.display sampleSP "done" none).clearDisabled = false ∧
    (UpdateView.display sampleUV "msg").innerHTML = "msg" :=
  subprocess_display_buffers sampleSP "done" none (by decide) sampleUV "msg"

/-- Claim C6: the notebook's `while data.sync(): time.sleep(0.1)` loop
terminates exactly when some call of `data.sync()` returns a falsy value;
the notebook imposes no iteration bound or timeout of its own. -/
theorem sync_polling_terminates_iff (sync : ℕ → Bool) :
    SyncLoopHalts sync 0 ↔ ∃ n, sync n = false := by
  constructor
  · intro h
    have H : ∀ k, SyncLoopHalts sync k → ∃ n, sync n = false := by
      intro k hk
      induction hk with
      | done k hk => exact ⟨k, hk⟩
      | again k _ _ ih => exact ih
    exact H 0 h
  · rintro ⟨n, hn⟩
    have H : ∀ d k, k + d = n → SyncLoopHalts sync k := by
      intro d
      induction d with
      | zero =>
        intro k hk
        refine SyncLoopHalts.done k ?_
        rw [Nat.add_zero] at hk
        rw [hk]
        exact hn
      | succ d ih =>
        intro k hk
        cases hb : sync k with
        | false => exact SyncLoopHalts.done k hb
        | true => exact SyncLoopHalts.again k hb (ih (k + 1) (by omega))
    exact H n 0 (by omega)

/-- Witness for C6: a sync stream that returns truthy twice and then
falsy terminates the loop. -/
theorem sync_polling_terminates_witness :
    SyncLoopHalts (fun n => decide (n < 2)) 0 :=
  (sync_polling_terminates_iff (fun n => decide (n < 2))).mpr ⟨2, by decide⟩

/-- Claim C7: the notebook installs no exception handler around its
library calls: in the instrument-construction cell and in the timed-loop
cell (whose `with Timer` context manager never suppresses exceptions),
the first library call that raises makes the whole cell evaluate to that
very exception, and the calls after it never run. -/
theorem notebook_calls_unhandled (outcome : ℕ → Except String Unit) (i : ℕ) (e : String)
    (hok : ∀ j, j < i → outcome j = Except.ok ())
    (hfail : outcome i = Except.error e) :
    (i < 9 → instrumentCell outcome = Except.error e) ∧
    (i < 2 → timedLoopCell outcome = Except.error e) := by
  constructor
  · intro hi
    exact runCalls_error outcome e 9 0 i (Nat.zero_le i) (by omega) hok hfail
  · intro hi
    interval_cases i
    · have h0 : runCalls outcome 0 1 = Except.error e :=
        runCalls_error outcome e 1 0 0 le_rfl (by omega) hok hfail
      unfold timedLoopCell
      rw [h0]
      rfl
    · have h0 : outcome 0 = Except.ok () := hok 0 (by omega)
      have hr0 : runCalls outcome 0 1 = Except.ok () := by
        show (match outcome 0 with
          | Except.ok _ => runCalls outcome 1 0
          | Except.error e => Except.error e) = Except.ok ()
        rw [h0]
        rfl
      have hr1 : runCalls outcome 1 1 = Except.error e := by
        show (match outcome 1 with
          | Except.ok _ => runCalls outcome 2 0
          | Except.error e => Except.error e) = Except.error e
        rw [hfail]
      unfold timedLoopCell
      rw [hr0, hr1]
      rfl

/-- Witness for C7: a VISA error raised by the second timed loop run
propagates out of the cell. -/
theorem notebook_calls_unhandled_witness :
    timedLoopCell (fun j => if j = 0 then Except.ok () else Except.error "VisaIOError")
      = Except.error "VisaIOError" :=
  (notebook_calls_unhandled
      (fun j => if j = 0 then Except.ok () else Except.error "VisaIOError") 1 "VisaIOError"
      (fun j hj => by
        have hj0 : j = 0 := by omega
        rw [hj0]
        rfl)
      rfl).2 (by omega)

/-- Claim C8: `UpdateView.setInterval` is idempotent and keeps at most one
timer alive: a call with the current `_interval` is a no-op; a call with a
different value removes the previously stored timer id from the live set
before possibly starting a fresh one; and after any sequence of
`setInterval` calls from the freshly rendered state, at most one polling
timer is live. -/
theorem setInterval_keeps_one_timer :
    (∀ s : UpdateView, s.setInterval (some s.interval) = s) ∧
    (∀ (s : UpdateView) (a : Option ℚ) (id : ℕ), UpdateView.wf s →
      s.updater = some id → a.getD s.modelInterval ≠ s.interval →
      id ∉ (s.setInterval a).active) ∧
    (∀ (mi : ℚ) (cl : Bool) (args : List (Option ℚ)),
      (args.foldl UpdateView.setInterval (UpdateView.initState mi cl)).active.length ≤ 1) := by
  refine ⟨UpdateView.setInterval_self, ?_, ?_⟩
  · intro s a id hwf hup hn
    have hs := UpdateView.setInterval_spec s a hwf hn
    have hlt : id < s.nextId := hwf.1 id hup
    by_cases hz : a.getD s.modelInterval ≠ 0
    · rw [if_pos hz] at hs
      rw [hs.1]
      simp only [List.mem_singleton]
      omega
    · rw [if_neg hz] at hs
      rw [hs.1]
      simp
  · intro mi cl args
    exact UpdateView.length_le_one_of_wf _ (UpdateView.wf_foldl_setInterval mi cl args)

/-- Witness for C8: no hypothesis-free conjunct is vacuous — instantiated
at a concrete state with a live timer and a changed interval. -/
theorem setInterval_keeps_one_timer_witness :
    1 ∉ (sampleUV.setInterval (some 0)).active ∧
    ((([some 2, none, some 0] : List (Option ℚ)).foldl UpdateView.setInterval
        (UpdateView.initState 1 true)).active.length ≤ 1) :=
  ⟨setInterval_keeps_one_timer.2.1 sampleUV (some 0) 1
      ⟨fun id h => by simp [sampleUV] at h ⊢; omega, Or.inr ⟨1, rfl, rfl⟩⟩
      rfl (by norm_num [sampleUV]),
    setInterval_keeps_one_timer.2.2 1 true [some 2, none, some 0]⟩

/-- Claim C9: after a window resize in the floated state, the panel's
left offset is at most `innerWidth - 20` and its top offset is at most
`innerHeight - 20` (`minVis = 20`). -/
theorem resize_clamps_floated_panel (s : SubprocessView) (w h : ℤ)
    (hfl : s.qcodesState = "floated") :
    (SubprocessView.resize s w h).left ≤ w - 20 ∧
    (SubprocessView.resize s w h).top ≤ h - 20 := by
  unfold SubprocessView.resize
  rw [if_pos hfl]
  exact ⟨by rw [SubprocessView.clampTop_left]; exact SubprocessView.clampLeft_le s (w - 20),
    SubprocessView.clampTop_le _ (h - 20)⟩

/-- Witness for C9 at a concrete floated panel dragged past the new
window bounds. -/
theorem resize_clamps_floated_panel_witness :
    (SubprocessView.resize sampleSP 400 300).left ≤ 400 - 20 ∧
    (SubprocessView.resize sampleSP 400 300).top ≤ 300 - 20 :=
  resize_clamps_floated_panel sampleSP 400 300 rfl

/-- Claim C10: the cleanup at the start of `SubprocessView.render`
removes every element with the `qcodes-output-view` class other than the
view's own element, so right after render exactly one such panel exists
in the document, and it is the view's own. -/
theorem render_removes_stale_panels (doc : List DomElem) (selfId : ℕ)
    (h : doc.countP (fun e => e.1 == selfId) = 1) :
    (renderCleanup doc selfId).countP (fun e => e.2) = 1 ∧
    ∀ e ∈ renderCleanup doc selfId, e.2 = true → e.1 = selfId :=
  ⟨countP_renderCleanup_one doc selfId h, renderCleanup_class_only_self doc selfId⟩

/-- Witness for C10: a document with two stale panels and the view's own
element ends up with exactly one panel. -/
theorem render_removes_stale_panels_witness :
    (renderCleanup [(1, true), (2, false), (3, true)] 2).countP (fun e => e.2) = 1 :=
  (render_removes_stale_panels [(1, true), (2, false), (3, true)] 2 (by decide)).1

end QcodesNotebook
